import Mathlib

/-!
Verification of the monotime library (Go): monotonic-clock arithmetic
(`MonoTime.Add`, `MonoTime.Sub`, `MonoTime.Round`, `MonoTime.Truncate`),
the `Now` clock readers, the `Ticker.Stop` one-shot latch and the background
delivery loop of `Ticker.start`.

Go `int64` values are embedded as `Int` together with `wrap64`, which reduces
an integer to the representative of its class mod 2^64 lying in
[-2^63, 2^63), exactly the two's-complement wraparound Go performs on every
arithmetic operation.  Go's `%` on `int64` is truncated remainder, which is
`Int.tmod`.
-/

namespace Monotime

/-- Two's-complement wraparound of a 64-bit signed integer: the unique value
congruent to `x` mod 2^64 lying in [-2^63, 2^63).  Every Go `int64`
arithmetic operation is this wrap applied to the exact integer result. -/
def wrap64 (x : Int) : Int :=
  (x + 9223372036854775808) % 18446744073709551616 - 9223372036854775808

/-- The predicate that an integer is representable as a Go `int64`. -/
abbrev isInt64 (x : Int) : Prop :=
  -9223372036854775808 ≤ x ∧ x ≤ 9223372036854775807

/-- `MonoTime` (mono.go line 11) is a Go `int64`; so are `time.Duration` and
`MonoDuration`.  All four `Round`/`Truncate` variants in the repository share
one algorithm over this common representation. -/
abbrev MonoTime := Int

/-- mono.go `func (t MonoTime) Add(d time.Duration) MonoTime \x7b return t + MonoTime(d) \x7d`
with Go's wrapping 64-bit addition. -/
def MonoTime.Add (t : MonoTime) (d : Int) : MonoTime :=
  wrap64 (t + d)

/-- mono.go `func (t MonoTime) Sub(tt MonoTime) time.Duration \x7b return time.Duration(t - tt) \x7d`
with Go's wrapping 64-bit subtraction. -/
def MonoTime.Sub (t tt : MonoTime) : Int :=
  wrap64 (t - tt)

/-- mono.go lines 32-42 (same code in main.go lines 52-62 over `MonoDuration`):

    if d <= 0 \x7b return t \x7d
    r := time.Duration(t) % d
    if r*2 <= d \x7b return t.Add(-r) \x7d
    return t.Add(d - r)

Go's `%` is truncated remainder (`Int.tmod`); the intermediates `r*2`, `-r`
and `d - r` are `int64` operations and hence wrap. -/
def MonoTime.Round (t : MonoTime) (d : Int) : MonoTime :=
  if d ≤ 0 then t
  else if wrap64 (Int.tmod t d * 2) ≤ d then MonoTime.Add t (wrap64 (-(Int.tmod t d)))
  else MonoTime.Add t (wrap64 (d - Int.tmod t d))

/-- mono.go lines 51-56 (same code in main.go lines 71-76):

    if d <= 0 \x7b return t \x7d
    return t.Add(-(time.Duration(t) % d)) -/
def MonoTime.Truncate (t : MonoTime) (d : Int) : MonoTime :=
  if d ≤ 0 then t
  else MonoTime.Add t (wrap64 (-(Int.tmod t d)))

/-- Result reported by the OS for a `ClockGettime(CLOCK_MONOTONIC, spec)`
call: either the nanosecond reading, or an error. -/
inductive ClockResult where
  | ok (nanos : Int)
  | oserr
deriving DecidableEq

/-- mono.go lines 61-65 variant of `Now`: the error of `ClockGettime` is
discarded (`_ = unix.ClockGettime(...)`) and `spec.Nano()` is returned
regardless; on error the zero-initialised `Timespec` yields 0.  `some v`
models a normal return of `v`; `none` would model a fatal stop, which this
variant never takes. -/
def NowUnchecked : ClockResult → Option Int
  | ClockResult.ok n => some n
  | ClockResult.oserr => some 0

/-- mono.go lines 126-134 variant of `Now`: a non-nil error from
`ClockGettime` is wrapped and passed to `panic`, modelled as `none` (fatal,
no value returned); otherwise `spec.Nano()` is returned. -/
def NowChecked : ClockResult → Option Int
  | ClockResult.ok n => some n
  | ClockResult.oserr => none

/-- State of a `Ticker`'s stop latch: `stopOnceDone` is the `sync.Once`
latch, `closeCount` counts executions of the underlying `t.fd.Close()`. -/
structure TickerState where
  stopOnceDone : Bool
  closeCount : Nat
deriving DecidableEq, Repr

/-- A freshly constructed ticker: latch unset, handle never closed. -/
def TickerState.init : TickerState :=
  { stopOnceDone := false, closeCount := 0 }

/-- main.go lines 89-93 / 199-203:

    func (t *Ticker) Stop() \x7b
      t.stopOnce.Do(func() \x7b t.fd.Close() \x7d)
    \x7d

`sync.Once.Do` runs the body exactly when the latch is unset, then sets it;
each `Stop` call returns normally in every case. -/
def TickerState.Stop (s : TickerState) : TickerState :=
  if s.stopOnceDone then s
  else { stopOnceDone := true, closeCount := s.closeCount + 1 }

/-- A sequence of `n` calls to `Stop` (any interleaving of concurrent calls
is some sequence, `sync.Once.Do` being atomic). -/
def stopN : Nat → TickerState → TickerState
  | 0, s => s
  | Nat.succ n, s => stopN n s.Stop

/-- Outcome of the blocking `t.fd.Read(expirations)` in the delivery loop:
a successful read of a firing count, the distinguished closed-handle error,
or any other error. -/
inductive ReadResult where
  | ok (count : Nat)
  | errClosed
  | errOther
deriving DecidableEq

/-- What one iteration of the delivery loop does with the read result. -/
inductive LoopOutcome where
  | continues (ticks : Nat)
  | exitsNormally
  | panics
deriving DecidableEq

/-- main.go lines 95-116 / 205-228, one iteration of the goroutine body:

    _, err := t.fd.Read(expirations)
    if err == os.ErrClosed \x7b return \x7d
    else if err != nil \x7b panic(...) \x7d
    occurances := ...; for i = 0; i < occurances; i++ \x7b ch <- struct\x7b\x7d\x7b\x7d \x7d

A successful read delivers the reported count of ticks and loops; the
closed-handle error returns (exits the goroutine normally); any other error
panics. -/
def startStep : ReadResult → LoopOutcome
  | ReadResult.ok n => LoopOutcome.continues n
  | ReadResult.errClosed => LoopOutcome.exitsNormally
  | ReadResult.errOther => LoopOutcome.panics

/-! ### Helper lemmas -/

theorem wrap64_eq_self {x : Int} (h1 : -9223372036854775808 ≤ x)
    (h2 : x ≤ 9223372036854775807) : wrap64 x = x := by
  unfold wrap64
  omega

theorem wrap64_isInt64 (x : Int) : isInt64 (wrap64 x) := by
  unfold wrap64
  constructor <;> omega

theorem wrap64_add_left (x y : Int) : wrap64 (wrap64 x + y) = wrap64 (x + y) := by
  unfold wrap64
  omega

theorem wrap64_add_right (x y : Int) : wrap64 (x + wrap64 y) = wrap64 (x + y) := by
  unfold wrap64
  omega

theorem wrap64_sub_left (x y : Int) : wrap64 (wrap64 x - y) = wrap64 (x - y) := by
  unfold wrap64
  omega

theorem neg_tmod_left (a b : Int) : Int.tmod (-a) b = -Int.tmod a b := by
  rw [Int.tmod_def, Int.tmod_def, Int.neg_tdiv, Int.mul_neg]
  omega

theorem tmod_sign_bounds (t d : Int) (hd : 0 < d) :
    -d < Int.tmod t d ∧ Int.tmod t d < d ∧
    (0 ≤ t → 0 ≤ Int.tmod t d) ∧ (t < 0 → Int.tmod t d ≤ 0) := by
  rcases Int.le_or_lt 0 t with ht | ht
  · have h1 := Int.tmod_nonneg d ht
    have h2 := Int.tmod_lt_of_pos t hd
    omega
  · have h1 : (0 : Int) ≤ -t := by omega
    have h2 := Int.tmod_nonneg d h1
    have h3 := Int.tmod_lt_of_pos (-t) hd
    have h4 := neg_tmod_left t d
    omega

theorem dvd_sub_tmod (t d : Int) : d ∣ (t - Int.tmod t d) := by
  have h := Int.tmod_def t d
  exact ⟨Int.tdiv t d, by omega⟩

theorem sub_tmod_bounds (t d : Int) (ht1 : -9223372036854775808 ≤ t)
    (ht2 : t ≤ 9223372036854775807) (hd : 0 < d) :
    -9223372036854775808 ≤ t - Int.tmod t d ∧
    t - Int.tmod t d ≤ 9223372036854775807 := by
  have hq := Int.tmod_def t d
  rcases Int.le_or_lt 0 t with ht | ht
  · have hdiv : 0 ≤ Int.tdiv t d := Int.tdiv_nonneg ht (Int.le_of_lt hd)
    have hmul : 0 ≤ d * Int.tdiv t d := Int.mul_nonneg (Int.le_of_lt hd) hdiv
    have hsb := tmod_sign_bounds t d hd
    omega
  · have hnt : (0 : Int) ≤ -t := by omega
    have hdiv : 0 ≤ Int.tdiv (-t) d := Int.tdiv_nonneg hnt (Int.le_of_lt hd)
    have hneg : Int.tdiv (-t) d = -Int.tdiv t d := Int.neg_tdiv t d
    have hdiv2 : Int.tdiv t d ≤ 0 := by omega
    have hmul : d * Int.tdiv t d ≤ d * 0 :=
      mul_le_mul_of_nonneg_left hdiv2 (Int.le_of_lt hd)
    have hsb := tmod_sign_bounds t d hd
    omega

theorem Round_eq_cases (t d : Int) (ht : isInt64 t) (hd : 0 < d)
    (hdm : d ≤ 9223372036854775807)
    (hov : t - Int.tmod t d + d ≤ 9223372036854775807) :
    MonoTime.Round t d = t - Int.tmod t d ∨
    MonoTime.Round t d = t - Int.tmod t d + d := by
  obtain ⟨ht1, ht2⟩ := ht
  have hsb := tmod_sign_bounds t d hd
  have hrb := sub_tmod_bounds t d ht1 ht2 hd
  unfold MonoTime.Round MonoTime.Add
  rw [if_neg (by omega)]
  by_cases hc : wrap64 (Int.tmod t d * 2) ≤ d
  · left
    rw [if_pos hc]
    have hnr : wrap64 (-Int.tmod t d) = -Int.tmod t d :=
      wrap64_eq_self (by omega) (by omega)
    rw [hnr]
    have he : t + -Int.tmod t d = t - Int.tmod t d := by omega
    rw [he]
    exact wrap64_eq_self hrb.1 hrb.2
  · right
    rw [if_neg hc]
    rw [wrap64_add_right]
    have he : t + (d - Int.tmod t d) = t - Int.tmod t d + d := by omega
    rw [he]
    exact wrap64_eq_self (by omega) hov

theorem Round_isInt64 (t d : Int) (ht : isInt64 t) (hd : 0 < d)
    (hdm : d ≤ 9223372036854775807)
    (hov : t - Int.tmod t d + d ≤ 9223372036854775807) :
    isInt64 (MonoTime.Round t d) := by
  obtain ⟨ht1, ht2⟩ := ht
  have hrb := sub_tmod_bounds t d ht1 ht2 hd
  rcases Round_eq_cases t d ⟨ht1, ht2⟩ hd hdm hov with h | h <;> rw [h] <;>
    exact ⟨by omega, by omega⟩

theorem Round_tmod_zero (t d : Int) (ht : isInt64 t) (hd : 0 < d)
    (hdm : d ≤ 9223372036854775807)
    (hov : t - Int.tmod t d + d ≤ 9223372036854775807) :
    Int.tmod (MonoTime.Round t d) d = 0 := by
  rcases Round_eq_cases t d ht hd hdm hov with h | h <;> rw [h]
  · exact Int.tmod_eq_zero_of_dvd (dvd_sub_tmod t d)
  · exact Int.tmod_eq_zero_of_dvd (dvd_add (dvd_sub_tmod t d) dvd_rfl)

theorem Round_of_tmod_zero (m d : Int) (hm : isInt64 m) (hd : 0 < d)
    (h0 : Int.tmod m d = 0) : MonoTime.Round m d = m := by
  obtain ⟨hm1, hm2⟩ := hm
  unfold MonoTime.Round MonoTime.Add
  rw [if_neg (by omega), h0]
  have h20 : wrap64 ((0 : Int) * 2) = 0 := by
    rw [Int.zero_mul]
    exact wrap64_eq_self (by norm_num) (by norm_num)
  rw [h20, if_pos (Int.le_of_lt hd)]
  have hn0 : wrap64 (-(0 : Int)) = 0 := by
    rw [Int.neg_zero]
    exact wrap64_eq_self (by norm_num) (by norm_num)
  rw [hn0, Int.add_zero]
  exact wrap64_eq_self hm1 hm2

theorem Round_idem (t d : Int) (ht : isInt64 t) (hd : 0 < d)
    (hdm : d ≤ 9223372036854775807)
    (hov : t - Int.tmod t d + d ≤ 9223372036854775807) :
    MonoTime.Round (MonoTime.Round t d) d = MonoTime.Round t d :=
  Round_of_tmod_zero (MonoTime.Round t d) d (Round_isInt64 t d ht hd hdm hov)
    hd (Round_tmod_zero t d ht hd hdm hov)

theorem stopN_latched (n : Nat) (c : Nat) :
    stopN n { stopOnceDone := true, closeCount := c } =
    { stopOnceDone := true, closeCount := c } := by
  induction n with
  | zero => rfl
  | succ k ih =>
    show stopN k (TickerState.Stop _) = _
    rw [show TickerState.Stop { stopOnceDone := true, closeCount := c } =
      { stopOnceDone := true, closeCount := c } from rfl]
    exact ih

end Monotime

/-! ### Claim theorems -/

/-- Claim C1. The claim states that a halfway value (remainder times two
equal to `d`) rounds to the later, larger multiple of `d`.  The code does the
opposite at `t = 5`, `d = 10`: the remainder is 5, `5*2 == 10` lands in the
`r*2 <= d` branch, and `Round` returns the earlier multiple 0 rather than the
later multiple 10, contradicting the code's own doc comment ("The rounding
behavior for halfway values is to round up"). -/
theorem c1_round_halfway_rounds_down :
    Int.tmod 5 10 * 2 = 10 ∧
    Monotime.MonoTime.Round 5 10 = 0 ∧ Monotime.MonoTime.Round 5 10 ≠ 10 := by
  decide

/-- Claim C2. The claim states `Truncate(t, d) <= t` for every `t`, negative
included.  At `t = -7`, `d = 10` the truncated remainder is `-7`, so the code
returns `-7 - (-7) = 0 > -7`: it rounds a negative time up toward zero, not
down toward the epoch, contradicting the code's own doc comment ("rounding t
down to a multiple of d"). -/
theorem c2_truncate_negative_goes_up :
    Monotime.MonoTime.Truncate (-7) 10 = 0 ∧
    ¬ Monotime.MonoTime.Truncate (-7) 10 ≤ (-7 : Int) := by
  decide

/-- Claim C3. The claim states `|Round(t, d) - t| <= d/2` for every `t`,
negative included.  At `t = -7`, `d = 10` the remainder is `-7`, the wrapped
`r*2 = -14 <= 10` takes the first branch, and the code returns 0, at distance
7 from `t` while `d/2 = 5`; the nearest multiple is -10, so the code
contradicts its own doc comment ("rounding t to the nearest multiple of d"). -/
theorem c3_round_negative_exceeds_half :
    Monotime.MonoTime.Round (-7) 10 = 0 ∧
    ¬ |Monotime.MonoTime.Round (-7) 10 - (-7)| ≤ (10 : Int) / 2 := by
  decide

/-- Claim C4. `Add` and `Sub` are exact inverses under 64-bit wraparound
arithmetic: for every `t` and every `int64` duration `d`,
`t.Add(d).Sub(t) == d`, and for every `int64` time `t2`,
`t.Add(t2.Sub(t)) == t2`. -/
theorem c4_add_sub_inverse (t d t2 : Int) (hd : Monotime.isInt64 d)
    (ht2 : Monotime.isInt64 t2) :
    Monotime.MonoTime.Sub (Monotime.MonoTime.Add t d) t = d ∧
    Monotime.MonoTime.Add t (Monotime.MonoTime.Sub t2 t) = t2 := by
  obtain ⟨hd1, hd2⟩ := hd
  obtain ⟨h21, h22⟩ := ht2
  constructor
  · unfold Monotime.MonoTime.Add Monotime.MonoTime.Sub
    rw [Monotime.wrap64_sub_left]
    have he : t + d - t = d := by omega
    rw [he]
    exact Monotime.wrap64_eq_self hd1 hd2
  · unfold Monotime.MonoTime.Add Monotime.MonoTime.Sub
    rw [Monotime.wrap64_add_right]
    have he : t + (t2 - t) = t2 := by omega
    rw [he]
    exact Monotime.wrap64_eq_self h21 h22

/-- Witness for C4 at `t = 100`, `d = 7`, `t2 = 23`. -/
theorem c4_add_sub_inverse_witness :
    Monotime.MonoTime.Sub (Monotime.MonoTime.Add 100 7) 100 = 7 ∧
    Monotime.MonoTime.Add 100 (Monotime.MonoTime.Sub 23 100) = 23 :=
  c4_add_sub_inverse 100 7 23 (by decide) (by decide)

/-- Claim C5 counterexample. The claim states that no path returns a value
when the OS reports a clock-read error, but the mono.go lines 61-65 variant
of `Now` discards the error of `ClockGettime` (`_ = unix.ClockGettime(...)`)
and returns a reading anyway. -/
theorem c5_now_unchecked_ignores_error :
    Monotime.NowUnchecked Monotime.ClockResult.oserr ≠ none := by
  decide

/-- Claim C5 as amended. The error-checking variant of `Now` (mono.go lines
126-134) fails fatally (panics, modelled `none`) exactly on an OS clock-read
error and returns the clock value on success; only the historical unchecked
variant at mono.go lines 61-65 ignores the error. -/
theorem c5_now_checked_fatal_on_error :
    Monotime.NowChecked Monotime.ClockResult.oserr = none ∧
    ∀ n : Int, Monotime.NowChecked (Monotime.ClockResult.ok n) = some n :=
  ⟨rfl, fun _ => rfl⟩

/-- Claim C6. `Stop` is idempotent: over any sequence of `n >= 1` calls to
`Ticker.Stop` starting from a fresh ticker, the `sync.Once` latch ensures the
underlying `fd.Close()` runs exactly once; every call is a total state
transition, i.e. returns normally. -/
theorem c6_stop_idempotent (n : Nat) (h : 1 ≤ n) :
    (Monotime.stopN n Monotime.TickerState.init).closeCount = 1 ∧
    (Monotime.stopN n Monotime.TickerState.init).stopOnceDone = true := by
  obtain ⟨k, rfl⟩ : ∃ k, n = k + 1 := ⟨n - 1, by omega⟩
  have h1 : Monotime.stopN (k + 1) Monotime.TickerState.init =
      { stopOnceDone := true, closeCount := 1 } := by
    simp only [Monotime.stopN]
    rw [show Monotime.TickerState.Stop Monotime.TickerState.init =
      { stopOnceDone := true, closeCount := 1 } from rfl]
    exact Monotime.stopN_latched k 1
  rw [h1]
  exact ⟨rfl, rfl⟩

/-- Witness for C6 at `n = 3`. -/
theorem c6_stop_idempotent_witness :
    (Monotime.stopN 3 Monotime.TickerState.init).closeCount = 1 ∧
    (Monotime.stopN 3 Monotime.TickerState.init).stopOnceDone = true :=
  c6_stop_idempotent 3 (by decide)

/-- Claim C7. One iteration of the background delivery loop exits normally
exactly when the read failed with the closed-handle error; it panics exactly
when the read failed with any other error; and a successful read never
terminates the loop, it delivers the reported tick count and continues. -/
theorem c7_start_exit_characterisation :
    (∀ r, Monotime.startStep r = Monotime.LoopOutcome.exitsNormally ↔
      r = Monotime.ReadResult.errClosed) ∧
    (∀ r, Monotime.startStep r = Monotime.LoopOutcome.panics ↔
      r = Monotime.ReadResult.errOther) ∧
    (∀ n, Monotime.startStep (Monotime.ReadResult.ok n) =
      Monotime.LoopOutcome.continues n) := by
  refine ⟨fun r => ?_, fun r => ?_, fun n => rfl⟩ <;>
    cases r <;> simp [Monotime.startStep]

/-- Claim C8. For every time `t` and every duration `d <= 0`, both `Round`
and `Truncate` return `t` unchanged. -/
theorem c8_nonpositive_duration_noop (t d : Int) (hd : d ≤ 0) :
    Monotime.MonoTime.Round t d = t ∧ Monotime.MonoTime.Truncate t d = t := by
  unfold Monotime.MonoTime.Round Monotime.MonoTime.Truncate
  rw [if_pos hd, if_pos hd]
  exact ⟨rfl, rfl⟩

/-- Witness for C8 at `t = 12345`, `d = 0`. -/
theorem c8_nonpositive_duration_noop_witness :
    Monotime.MonoTime.Round 12345 0 = 12345 ∧
    Monotime.MonoTime.Truncate 12345 0 = 12345 :=
  c8_nonpositive_duration_noop 12345 0 (by decide)

/-- Claim C9 counterexample. At `t = 2^63 - 1`, `d = 10` the remainder is 7,
the round-up branch is taken, and `t + 3` wraps to `-2^63 + 2 =
-9223372036854775806`, whose truncated remainder mod 10 is -6, not 0; a
second `Round` then moves the value, so idempotence fails too. -/
theorem c9_round_overflow_not_multiple :
    Int.tmod (Monotime.MonoTime.Round 9223372036854775807 10) 10 ≠ 0 ∧
    Monotime.MonoTime.Round (Monotime.MonoTime.Round 9223372036854775807 10) 10 ≠
      Monotime.MonoTime.Round 9223372036854775807 10 := by
  decide

/-- Claim C9 as amended. For every `int64` time `t` and duration
`0 < d <= 2^63 - 1` such that the multiple of `d` next above `t` is still
representable (`t - t tmod d + d <= 2^63 - 1`, which excludes only the
wraparound cases near the top of the `int64` range), `Round(t, d)` is an
exact multiple of `d` (truncated remainder zero) and `Round` is idempotent. -/
theorem c9_round_multiple_idempotent (t d : Int) (ht : Monotime.isInt64 t)
    (hd : 0 < d) (hdm : d ≤ 9223372036854775807)
    (hov : t - Int.tmod t d + d ≤ 9223372036854775807) :
    Int.tmod (Monotime.MonoTime.Round t d) d = 0 ∧
    Monotime.MonoTime.Round (Monotime.MonoTime.Round t d) d =
      Monotime.MonoTime.Round t d :=
  ⟨Monotime.Round_tmod_zero t d ht hd hdm hov,
    Monotime.Round_idem t d ht hd hdm hov⟩

/-- Witness for C9 at `t = 9007`, `d = 100`. -/
theorem c9_round_multiple_idempotent_witness :
    Int.tmod (Monotime.MonoTime.Round 9007 100) 100 = 0 ∧
    Monotime.MonoTime.Round (Monotime.MonoTime.Round 9007 100) 100 =
      Monotime.MonoTime.Round 9007 100 :=
  c9_round_multiple_idempotent 9007 100 (by decide) (by decide) (by decide)
    (by decide)

/-- Claim C10. `Add` has zero as identity on every `int64` time, and is a
homomorphism from durations under 64-bit wraparound addition:
`t.Add(d1).Add(d2) == t.Add(d1 + d2)` where `d1 + d2` is the wrapped 64-bit
sum. -/
theorem c10_add_identity_homomorphism (t d1 d2 : Int)
    (ht : Monotime.isInt64 t) :
    Monotime.MonoTime.Add t 0 = t ∧
    Monotime.MonoTime.Add (Monotime.MonoTime.Add t d1) d2 =
      Monotime.MonoTime.Add t (Monotime.wrap64 (d1 + d2)) := by
  obtain ⟨ht1, ht2⟩ := ht
  constructor
  · unfold Monotime.MonoTime.Add
    rw [Int.add_zero]
    exact Monotime.wrap64_eq_self ht1 ht2
  · unfold Monotime.MonoTime.Add
    rw [Monotime.wrap64_add_left, Monotime.wrap64_add_right, Int.add_assoc]

/-- Witness for C10 at `t = 55`, `d1 = 3`, `d2 = 4`. -/
theorem c10_add_identity_homomorphism_witness :
    Monotime.MonoTime.Add 55 0 = 55 ∧
    Monotime.MonoTime.Add (Monotime.MonoTime.Add 55 3) 4 =
      Monotime.MonoTime.Add 55 (Monotime.wrap64 (3 + 4)) :=
  c10_add_identity_homomorphism 55 3 4 (by decide)
